import Mathlib

/-!
Shallow embedding of the appointment scheduling engine of the repository
(`mock_calendly.py`, `schemas.py`, and the booking tool of `agent_tools.py`).

Modelling conventions:
* Times of day are modelled as minutes since midnight (`Nat`).  The source
  stores times as `"HH:MM"` strings and converts them with
  `time_to_minutes` (`h * 60 + m`); this conversion is a bijection between
  well-formed `"HH:MM"` strings and the naturals `0..1439`, so the model
  works directly with the minute values.
* Calendar dates are modelled by their proleptic-Gregorian ordinal
  (`date.toordinal()` in Python: ordinal 1 is 0001-01-01), so `weekday d =
  (d + 6) % 7` with Monday = 0 matches `date.weekday()`.  The request-level
  `"YYYY-MM-DD"` strings are parsed by `parseDate` below, mirroring
  `datetime.strptime(s, "%Y-%m-%d")`.
* `datetime.now()` is modelled by an explicit environment `Env` holding the
  current date ordinal, the current wall-clock hour/minute, and the strings
  the source derives from `now` (`%Y%m%d` for booking ids, `isoformat` for
  `created_at`).  Each API call receives one environment value.
* The JSON appointments file together with its fallible I/O is modelled by
  `FileState`: the record list plus two failure flags.  `_load_appointments`
  catches exceptions and returns `[]` (flag `loadFails`); `_save_appointments`
  catches exceptions and leaves the file as it was (flag `saveFails`).
* The `uuid.uuid4()`-derived fragments used for `booking_id` and
  `confirmation_code` are nondeterministic in the source; the model passes
  them as explicit string arguments.
-/

namespace MedCal

/-- Appointment categories, the four `Literal` values of `schemas.py`. -/
inductive Category where
  | general_consultation
  | follow_up
  | physical_exam
  | specialist_consultation
deriving DecidableEq

/-- Duration table `APPOINTMENT_TYPES[...]["duration"]` of `schemas.py`. -/
def Category.duration : Category → Nat
  | .general_consultation => 30
  | .follow_up => 15
  | .physical_exam => 45
  | .specialist_consultation => 60

/-- String name of a category, as used in requests, responses and records. -/
def Category.name : Category → String
  | .general_consultation => "general_consultation"
  | .follow_up => "follow_up"
  | .physical_exam => "physical_exam"
  | .specialist_consultation => "specialist_consultation"

/-- Patient value object (`PatientInfo` fields of `schemas.py`). -/
structure Patient where
  name : String
  email : String
  phone : String
deriving DecidableEq

/-- Stored appointment record: one entry of the `appointments` list in the
JSON file, with the fields `book_appointment` writes. -/
structure Appt where
  booking_id : String
  confirmation_code : String
  status : String
  appointment_type : String
  date : String
  start_time : Nat
  end_time : Nat
  duration_minutes : Nat
  patient : Patient
  reason : String
  created_at : String
deriving DecidableEq

/-- `TimeSlot` of `schemas.py` (times as minutes since midnight). -/
structure TimeSlot where
  start_time : Nat
  end_time : Nat
  available : Bool
deriving DecidableEq

/-- `AvailabilityResponse` of `schemas.py`. -/
structure AvailabilityResponse where
  date : String
  appointment_type : String
  available_slots : List TimeSlot
  total_slots : Nat
deriving DecidableEq

/-- `AppointmentResponse` of `schemas.py`.  The failure paths of the source
set `end_time` to the empty string; `none` models that. -/
structure AppointmentResponse where
  booking_id : String
  status : String
  confirmation_code : String
  appointment_type : String
  date : String
  start_time : Nat
  end_time : Option Nat
  patient_name : String
  patient_email : String
  reason : String
  created_at : String
deriving DecidableEq

/-- `AppointmentRequest` of `schemas.py`. -/
structure AppointmentRequest where
  appointment_type : Category
  appointment_date : String
  start_time : Nat
  patient : Patient
  reason : String
deriving DecidableEq

/-- The appointments JSON file plus the fallibility of its I/O:
`loadFails` models an exception inside `_load_appointments` (caught there,
yielding `[]`), `saveFails` an exception inside `_save_appointments`
(caught there, leaving the file unchanged). -/
structure FileState where
  content : List Appt
  loadFails : Bool
  saveFails : Bool
deriving DecidableEq

/-- Healthy file state: I/O succeeds. -/
def mkFS (l : List Appt) : FileState := ⟨l, false, false⟩

/-- `MockCalendlyAPI._load_appointments`. -/
def loadAppointments (fs : FileState) : List Appt :=
  if fs.loadFails then [] else fs.content

/-- `MockCalendlyAPI._save_appointments`. -/
def saveAppointments (fs : FileState) (l : List Appt) : FileState :=
  if fs.saveFails then fs else { fs with content := l }

/-- The ambient clock `datetime.now()`: current date ordinal, current
hour/minute, plus the derived strings the source formats from `now`. -/
structure Env where
  today : Nat
  nowH : Nat
  nowM : Nat
  todayYmd : String
  nowIso : String
deriving DecidableEq

/-- Python `date.weekday()` on an ordinal: Monday = 0 ... Sunday = 6
(ordinal 1, i.e. 0001-01-01, is a Monday). -/
def weekday (d : Nat) : Nat := (d + 6) % 7

/-- Gregorian leap-year rule (`calendar.isleap`). -/
def isLeap (y : Nat) : Bool := (y % 4 == 0 && y % 100 != 0) || y % 400 == 0

/-- Length of month `m` of year `y`. -/
def daysInMonth (y m : Nat) : Nat :=
  if m = 2 then (if isLeap y then 29 else 28)
  else if m = 4 ∨ m = 6 ∨ m = 9 ∨ m = 11 then 30
  else 31

/-- Days in year `y` before the first of month `m`. -/
def daysBeforeMonth (y m : Nat) : Nat :=
  (List.range (m - 1)).foldl (fun acc i => acc + daysInMonth y (i + 1)) 0

/-- Proleptic-Gregorian ordinal of (y, m, d), as `date(y,m,d).toordinal()`. -/
def toOrdinal (y m d : Nat) : Nat :=
  365 * (y - 1) + (y - 1) / 4 - (y - 1) / 100 + (y - 1) / 400
    + daysBeforeMonth y m + d

/-- Split a character list on the dash character. -/
def splitOnDash : List Char → List (List Char)
  | [] => [[]]
  | c :: rest =>
    let r := splitOnDash rest
    if c = '-' then [] :: r
    else
      match r with
      | h :: t => (c :: h) :: t
      | [] => [[c]]

/-- Numeric value of a list of decimal digit characters (Python `int`). -/
def digitsToNat (l : List Char) : Nat :=
  l.foldl (fun n c => n * 10 + (c.toNat - 48)) 0

/-- Parse of `datetime.strptime(s, "%Y-%m-%d").date()` to a date ordinal.
`%Y` demands exactly four digits, `%m` and `%d` one or two digits; the
whole string must be consumed, and the `date` constructor then enforces
`1 <= year`, `1 <= month <= 12`, `1 <= day <= daysInMonth`.  `none` models
the `ValueError` that the callers catch. -/
def parseDate (s : String) : Option Nat :=
  match splitOnDash s.data with
  | [ys, ms, ds] =>
    if ys.length = 4 ∧ ys.all Char.isDigit
        ∧ (ms.length = 1 ∨ ms.length = 2) ∧ ms.all Char.isDigit
        ∧ (ds.length = 1 ∨ ds.length = 2) ∧ ds.all Char.isDigit then
      let y := digitsToNat ys
      let m := digitsToNat ms
      let d := digitsToNat ds
      if 1 ≤ y ∧ 1 ≤ m ∧ m ≤ 12 ∧ 1 ≤ d ∧ d ≤ daysInMonth y m then
        some (toOrdinal y m d)
      else none
    else none
  | _ => none

/-- `MockCalendlyAPI._slots_overlap` after the `"HH:MM"` → minutes
conversion: `s1 < e2 and s2 < e1`. -/
def slotsOverlap (s1 e1 s2 e2 : Nat) : Bool :=
  decide (s1 < e2 ∧ s2 < e1)

/-- The candidate-start generator: the source's `while current_time +
duration <= end_time` loop from 09:00 (540) in 15-minute steps up to 17:00
(1020).  Structural fuel replaces the `while`: starting at 540 the loop body
runs at most 33 times (the starts 540, 555, ..., 1020), so fuel 33 yields
exactly the loop's output for every duration. -/
def genStartsFrom : Nat → Nat → Nat → List Nat
  | 0, _, _ => []
  | fuel + 1, t, dur =>
    if t + dur ≤ 1020 then t :: genStartsFrom fuel (t + 15) dur else []

/-- Candidate slot starts for a given duration (the source's slot loop). -/
def genStarts (dur : Nat) : List Nat := genStartsFrom 33 540 dur

/-- Availability flag of one candidate slot: not overlapping any booked
interval, and, when the requested date is the current date, not already
elapsed (`slot_hour < current_hour or (slot_hour == current_hour and
slot_minute <= current_minute)`). -/
def slotAvailable (env : Env) (d : Nat) (booked : List (Nat × Nat))
    (s dur : Nat) : Bool :=
  let avail1 := ! booked.any (fun b => slotsOverlap s (s + dur) b.1 b.2)
  if d = env.today then
    if s / 60 < env.nowH ∨ (s / 60 = env.nowH ∧ s % 60 ≤ env.nowM) then false
    else avail1
  else avail1

/-- Confirmed bookings' intervals for a date (the `booked_slots`
comprehension of `get_availability`). -/
def bookedOf (fs : FileState) (ds : String) : List (Nat × Nat) :=
  (loadAppointments fs).filterMap
    (fun a => if a.date = ds ∧ a.status = "confirmed"
              then some (a.start_time, a.end_time) else none)

/-- Empty availability result (past dates, weekends, errors). -/
def emptyAvail (ds : String) (cat : Category) : AvailabilityResponse :=
  { date := ds, appointment_type := cat.name, available_slots := [],
    total_slots := 0 }

/-- `MockCalendlyAPI.get_availability`. -/
def getAvailability (env : Env) (fs : FileState) (ds : String)
    (cat : Category) : AvailabilityResponse :=
  match parseDate ds with
  | none => emptyAvail ds cat
  | some d =>
    if d < env.today then emptyAvail ds cat
    else if 5 ≤ weekday d then emptyAvail ds cat
    else
      let dur := cat.duration
      let booked := bookedOf fs ds
      let slots := (genStarts dur).map
        (fun s => TimeSlot.mk s (s + dur) (slotAvailable env d booked s dur))
      let avail := slots.filter (·.available)
      { date := ds, appointment_type := cat.name, available_slots := avail,
        total_slots := avail.length }

/-- Failed booking response skeleton (shared by all failure paths). -/
def failResp (env : Env) (req : AppointmentRequest) (reason : String)
    (endT : Option Nat) : AppointmentResponse :=
  { booking_id := "", status := "failed", confirmation_code := "",
    appointment_type := req.appointment_type.name,
    date := req.appointment_date, start_time := req.start_time,
    end_time := endT, patient_name := req.patient.name,
    patient_email := req.patient.email, reason := reason,
    created_at := env.nowIso }

/-- Reason string of the `except` branch of `book_appointment` when the
date string fails to parse (`f"Booking failed: {e}"`; the Python message
text varies with the failure, this fixes a representative). -/
def parseFailReason (ds : String) : String :=
  "Booking failed: " ++ ("time data '" ++ ds ++ "' does not match format")

/-- The record `book_appointment` appends on success. -/
def mkRecord (env : Env) (req : AppointmentRequest) (u8 u6 : String) : Appt :=
  { booking_id := "APPT-" ++ env.todayYmd ++ "-" ++ u8,
    confirmation_code := u6, status := "confirmed",
    appointment_type := req.appointment_type.name,
    date := req.appointment_date, start_time := req.start_time,
    end_time := (req.start_time + req.appointment_type.duration) % 1440,
    duration_minutes := req.appointment_type.duration,
    patient := req.patient, reason := req.reason, created_at := env.nowIso }

/-- `MockCalendlyAPI.book_appointment`.  `u8` and `u6` are the two
uuid-derived fragments (`str(uuid4())[:8].upper()`, `[:6].upper()`). -/
def bookAppointment (env : Env) (fs : FileState) (req : AppointmentRequest)
    (u8 u6 : String) : AppointmentResponse × FileState :=
  match parseDate req.appointment_date with
  | none => (failResp env req (parseFailReason req.appointment_date) none, fs)
  | some d =>
    if d < env.today then
      (failResp env req "Cannot book appointments in the past" none, fs)
    else if 5 ≤ weekday d then
      (failResp env req "Clinic is closed on weekends" none, fs)
    else
      let dur := req.appointment_type.duration
      let endT := (req.start_time + dur) % 1440
      let avail := getAvailability env fs req.appointment_date
        req.appointment_type
      let ok := avail.available_slots.any
        (fun sl => decide (sl.start_time = req.start_time) && sl.available)
      if ok then
        let r := mkRecord env req u8 u6
        let appts := loadAppointments fs
        let fs' := saveAppointments fs (appts ++ [r])
        ({ booking_id := r.booking_id, status := "confirmed",
           confirmation_code := u6,
           appointment_type := req.appointment_type.name,
           date := req.appointment_date, start_time := req.start_time,
           end_time := some endT, patient_name := req.patient.name,
           patient_email := req.patient.email, reason := req.reason,
           created_at := env.nowIso }, fs')
      else
        (failResp env req "Time slot is not available" (some endT), fs)

/-- Flip the status of the first record matching `bid` to `"cancelled"`
(the `for` loop of `cancel_appointment`); `none` when no record matches. -/
def cancelFirst : List Appt → String → Option (List Appt)
  | [], _ => none
  | a :: rest, bid =>
    if a.booking_id = bid then some ({ a with status := "cancelled" } :: rest)
    else (cancelFirst rest bid).map (a :: ·)

/-- `MockCalendlyAPI.cancel_appointment`. -/
def cancelAppointment (fs : FileState) (bid : String) : Bool × FileState :=
  match cancelFirst (loadAppointments fs) bid with
  | some l => (true, saveAppointments fs l)
  | none => (false, fs)

/-- Count of decimal digits of a phone string, the `PatientInfo`
phone validator's `''.join(filter(str.isdigit, v))` length. -/
def phoneDigitCount (p : String) : Nat :=
  (p.data.filter Char.isDigit).length

/-- `PatientInfo` constructor of `schemas.py`: `none` models the pydantic
`ValidationError`.  Syntactic e-mail validation is performed by the
third-party `EmailStr` type, modelled as the oracle `emailOk`. -/
def mkPatientInfo (emailOk : String → Bool) (name email phone : String) :
    Option Patient :=
  if emailOk email then
    if 10 ≤ phoneDigitCount phone then some ⟨name, email, phone⟩ else none
  else none

/-- Arguments of `BookAppointmentTool._run` (`agent_tools.py`); the
category and start time arrive as already-shaped values in the model. -/
structure BookArgs where
  name : String
  email : String
  phone : String
  cat : Category
  date : String
  start : Nat
  reason : String
deriving DecidableEq

/-- `BookAppointmentTool._run`: required-fields check, `PatientInfo`
validation, then the engine call.  The success message of the source is a
long formatted text; the model keeps a short stand-in since no claim
inspects it. -/
def bookToolRun (emailOk : String → Bool) (env : Env) (fs : FileState)
    (a : BookArgs) (u8 u6 : String) : String × FileState :=
  if a.name = "" ∨ a.email = "" ∨ a.phone = "" ∨ a.date = "" ∨ a.reason = ""
  then ("Error: All fields are required to book an appointment.", fs)
  else
    match mkPatientInfo emailOk a.name a.email a.phone with
    | none => ("Error: Invalid patient information", fs)
    | some p =>
      let out := bookAppointment env fs
        ⟨a.cat, a.date, a.start, p, a.reason⟩ u8 u6
      if out.1.status = "failed" then
        ("Booking failed: " ++ out.1.reason, out.2)
      else
        ("Appointment Successfully Booked! Booking ID: " ++ out.1.booking_id
          ++ " Confirmation Code: " ++ out.1.confirmation_code, out.2)

/-- Overlap of two records' half-open `[start, end)` intervals on the same
date, both confirmed (the forbidden double-booking configuration). -/
def recsOverlap (a b : Appt) : Prop :=
  a.status = "confirmed" ∧ b.status = "confirmed" ∧ a.date = b.date
    ∧ a.start_time < b.end_time ∧ b.start_time < a.end_time

/-- Invariant: no two records of the store are confirmed, on the same
date, and overlapping. -/
def NoConfOverlap (l : List Appt) : Prop :=
  l.Pairwise (fun a b => ¬ recsOverlap a b)

/-- One engine call: an availability query or a booking attempt, each with
its own clock reading. -/
inductive EngineOp where
  | avail (env : Env) (ds : String) (cat : Category)
  | book (env : Env) (req : AppointmentRequest) (u8 u6 : String)

/-- Effect of one engine call on the appointments file
(`get_availability` never writes). -/
def stepOp (fs : FileState) : EngineOp → FileState
  | .avail _ _ _ => fs
  | .book env req u8 u6 => (bookAppointment env fs req u8 u6).2

/-- Run a sequence of engine calls, without interleaving. -/
def runOps (fs : FileState) : List EngineOp → FileState
  | [] => fs
  | op :: rest => runOps (stepOp fs op) rest

/-- One `book_appointment` call: its clock, request, and the two
uuid-derived fragments minted during the call. -/
structure BookCall where
  env : Env
  req : AppointmentRequest
  u8 : String
  u6 : String

/-- Run a sequence of booking calls. -/
def runBooks (fs : FileState) : List BookCall → FileState
  | [] => fs
  | c :: rest => runBooks (bookAppointment c.env fs c.req c.u8 c.u6).2 rest

/-! ### Concrete inputs used by witnesses and counterexamples -/

/-- Clock fixed at 2026-10-12 (a Monday, ordinal 739901) 12:00. -/
def env0 : Env := ⟨739901, 12, 0, "20261012", "2026-10-12T12:00:00"⟩

/-- Valid patient data (ten phone digits). -/
def patient0 : Patient := ⟨"Jane Roe", "jane@example.com", "555-123-4567"⟩

/-- Booking request: general consultation, Tuesday 2026-10-13 at 09:00. -/
def req0 : AppointmentRequest :=
  ⟨.general_consultation, "2026-10-13", 540, patient0, "checkup"⟩

/-- Booking request: general consultation, Tuesday 2026-10-13 at 10:00. -/
def req1 : AppointmentRequest :=
  ⟨.general_consultation, "2026-10-13", 600, patient0, "follow-up question"⟩

/-- Booking request on a Saturday (2026-10-17). -/
def reqSat : AppointmentRequest :=
  ⟨.general_consultation, "2026-10-17", 540, patient0, "checkup"⟩

/-- A stored confirmed record occupying 09:00-09:30 on 2026-10-13. -/
def appt0 : Appt := mkRecord env0 req0 "U8WIT000" "C6W001"

/-- Store holding just `appt0`. -/
def store0 : List Appt := [appt0]

/-- Booking request whose date string does not parse. -/
def reqBadDate : AppointmentRequest :=
  ⟨.general_consultation, "not-a-date", 540, patient0, "checkup"⟩

/-- Stand-in e-mail validity oracle used by witnesses: rejects exactly the
string "not-an-email". -/
def emailOk0 : String → Bool := fun s => s != "not-an-email"

/-- Tool arguments carrying an invalid e-mail address. -/
def argsBad : BookArgs :=
  ⟨"John Doe", "not-an-email", "555-123-4567", .general_consultation,
    "2026-10-13", 540, "checkup"⟩

/-! ### Helper lemmas -/

/-- Membership in the slot-start loop output: exactly the starts
`t + 15 * k` (with `k` below the fuel) fitting before 17:00. -/
theorem mem_genStartsFrom (dur : Nat) : ∀ (fuel t s : Nat),
    s ∈ genStartsFrom fuel t dur ↔
      ∃ k, k < fuel ∧ s = t + 15 * k ∧ s + dur ≤ 1020 := by
  intro fuel
  induction fuel with
  | zero => intro t s; simp [genStartsFrom]
  | succ fuel ih =>
    intro t s
    by_cases h : t + dur ≤ 1020
    · simp only [genStartsFrom, if_pos h, List.mem_cons, ih]
      constructor
      · rintro (rfl | ⟨k, hk, rfl, hle⟩)
        · exact ⟨0, by omega, by omega, by omega⟩
        · exact ⟨k + 1, by omega, by omega, hle⟩
      · rintro ⟨k, hk, rfl, hle⟩
        match k with
        | 0 => left; omega
        | k + 1 => right; exact ⟨k, by omega, by omega, hle⟩
    · simp only [genStartsFrom, if_neg h, List.not_mem_nil, false_iff]
      rintro ⟨k, hk, rfl, hle⟩
      omega

/-- The slot-start loop output is strictly increasing. -/
theorem pairwise_genStartsFrom (dur : Nat) : ∀ (fuel t : Nat),
    (genStartsFrom fuel t dur).Pairwise (· < ·) := by
  intro fuel
  induction fuel with
  | zero => intro t; simp [genStartsFrom]
  | succ fuel ih =>
    intro t
    by_cases h : t + dur ≤ 1020
    · simp only [genStartsFrom, if_pos h]
      refine List.Pairwise.cons ?_ (ih (t + 15))
      intro s hs
      rcases (mem_genStartsFrom dur fuel (t + 15) s).mp hs with ⟨k, _, rfl, _⟩
      omega
    · simp [genStartsFrom, if_neg h]

/-- Candidate starts: arithmetic progression from 09:00 fitting by 17:00. -/
theorem mem_genStarts (dur s : Nat) :
    s ∈ genStarts dur ↔ (∃ k, s = 540 + 15 * k) ∧ s + dur ≤ 1020 := by
  rw [genStarts, mem_genStartsFrom]
  constructor
  · rintro ⟨k, _, rfl, hle⟩; exact ⟨⟨k, rfl⟩, hle⟩
  · rintro ⟨⟨k, rfl⟩, hle⟩; exact ⟨k, by omega, rfl, hle⟩

/-- Filtering the generated slot list by its availability flag commutes
with the construction of the `TimeSlot` values. -/
theorem filter_avail_map (l : List Nat) (f : Nat → Bool) (g : Nat → Nat) :
    ((l.map (fun s => TimeSlot.mk s (g s) (f s))).filter (·.available))
      = (l.filter f).map (fun s => TimeSlot.mk s (g s) true) := by
  induction l with
  | nil => rfl
  | cons a t ih =>
    by_cases h : f a
    · simp [List.filter_cons, h, ih]
    · simp [List.filter_cons, h, ih]

/-- Closed form of `get_availability` on a parseable, current-or-future
weekday date. -/
theorem getAvail_eq (env : Env) (fs : FileState) (ds : String)
    (cat : Category) (d : Nat) (h1 : parseDate ds = some d)
    (h2 : env.today ≤ d) (h3 : weekday d < 5) :
    getAvailability env fs ds cat =
      { date := ds, appointment_type := cat.name,
        available_slots :=
          (((genStarts cat.duration).filter
              (fun s => slotAvailable env d (bookedOf fs ds) s cat.duration)).map
            (fun s => TimeSlot.mk s (s + cat.duration) true)),
        total_slots :=
          (((genStarts cat.duration).filter
              (fun s => slotAvailable env d (bookedOf fs ds) s cat.duration)).map
            (fun s => TimeSlot.mk s (s + cat.duration) true)).length } := by
  unfold getAvailability
  rw [h1]
  simp only [if_neg (by omega : ¬ d < env.today),
    if_neg (by omega : ¬ 5 ≤ weekday d), filter_avail_map]

/-- The starts listed by `get_availability` are the candidates whose
availability flag is true. -/
theorem getAvail_starts (env : Env) (fs : FileState) (ds : String)
    (cat : Category) (d : Nat) (h1 : parseDate ds = some d)
    (h2 : env.today ≤ d) (h3 : weekday d < 5) :
    (getAvailability env fs ds cat).available_slots.map (·.start_time)
      = (genStarts cat.duration).filter
          (fun s => slotAvailable env d (bookedOf fs ds) s cat.duration) := by
  rw [getAvail_eq env fs ds cat d h1 h2 h3, List.map_map]
  exact List.map_id _

/-- Membership in the interval list `booked_slots` of `get_availability`. -/
theorem mem_bookedOf (fs : FileState) (ds : String) (x y : Nat) :
    (x, y) ∈ bookedOf fs ds ↔
      ∃ a ∈ loadAppointments fs,
        a.date = ds ∧ a.status = "confirmed" ∧ a.start_time = x
          ∧ a.end_time = y := by
  simp only [bookedOf, List.mem_filterMap]
  constructor
  · rintro ⟨a, ha, hf⟩
    by_cases h : a.date = ds ∧ a.status = "confirmed"
    · rw [if_pos h] at hf
      have hp := Option.some.inj hf
      exact ⟨a, ha, h.1, h.2, congrArg Prod.fst hp, congrArg Prod.snd hp⟩
    · rw [if_neg h] at hf; cases hf
  · rintro ⟨a, ha, h1, h2, rfl, rfl⟩
    exact ⟨a, ha, by rw [if_pos ⟨h1, h2⟩]⟩

/-- On a date other than the current one, the availability flag is just
the overlap check. -/
theorem slotAvailable_future (env : Env) (d : Nat) (booked : List (Nat × Nat))
    (s dur : Nat) (h : d ≠ env.today) :
    slotAvailable env d booked s dur
      = ! booked.any (fun b => slotsOverlap s (s + dur) b.1 b.2) := by
  unfold slotAvailable
  rw [if_neg h]

/-- On a date other than the current one, a slot is available exactly when
it overlaps no booked interval. -/
theorem slotAvailable_future_iff (env : Env) (d : Nat)
    (booked : List (Nat × Nat)) (s dur : Nat) (h : d ≠ env.today) :
    slotAvailable env d booked s dur = true ↔
      ∀ b ∈ booked, ¬ (s < b.2 ∧ b.1 < s + dur) := by
  rw [slotAvailable_future env d booked s dur h]
  simp [List.any_eq_false, slotsOverlap]

/-- An available slot overlaps no booked interval (also on the current
date, where availability is additionally restricted). -/
theorem slotAvailable_no_overlap (env : Env) (d : Nat)
    (booked : List (Nat × Nat)) (s dur : Nat)
    (hs : slotAvailable env d booked s dur = true) :
    ∀ b ∈ booked, ¬ (s < b.2 ∧ b.1 < s + dur) := by
  unfold slotAvailable at hs
  by_cases h : d = env.today
  · rw [if_pos h] at hs
    by_cases h2 : s / 60 < env.nowH ∨ (s / 60 = env.nowH ∧ s % 60 ≤ env.nowM)
    · rw [if_pos h2] at hs; cases hs
    · rw [if_neg h2] at hs
      simpa [List.any_eq_false, slotsOverlap] using hs
  · rw [if_neg h] at hs
    simpa [List.any_eq_false, slotsOverlap] using hs

/-- Unfolding of `book_appointment` on an unparseable date: the `except`
branch. -/
theorem book_parsefail (env : Env) (fs : FileState) (req : AppointmentRequest)
    (u8 u6 : String) (h1 : parseDate req.appointment_date = none) :
    bookAppointment env fs req u8 u6
      = (failResp env req (parseFailReason req.appointment_date) none, fs) := by
  unfold bookAppointment
  rw [h1]

/-- Unfolding of `book_appointment` on a past date. -/
theorem book_past (env : Env) (fs : FileState) (req : AppointmentRequest)
    (u8 u6 : String) (d : Nat) (h1 : parseDate req.appointment_date = some d)
    (h2 : d < env.today) :
    bookAppointment env fs req u8 u6
      = (failResp env req "Cannot book appointments in the past" none, fs) := by
  unfold bookAppointment
  rw [h1]
  simp only [if_pos h2]

/-- Unfolding of `book_appointment` on a weekend date (not in the past). -/
theorem book_weekend (env : Env) (fs : FileState) (req : AppointmentRequest)
    (u8 u6 : String) (d : Nat) (h1 : parseDate req.appointment_date = some d)
    (h2 : ¬ d < env.today) (h3 : 5 ≤ weekday d) :
    bookAppointment env fs req u8 u6
      = (failResp env req "Clinic is closed on weekends" none, fs) := by
  unfold bookAppointment
  rw [h1]
  simp only [if_neg h2, if_pos h3]

/-- Unfolding of `book_appointment` when the availability re-check accepts
the requested start time: the record is appended and a confirmed response
returned. -/
theorem book_eq_ok (env : Env) (fs : FileState) (req : AppointmentRequest)
    (u8 u6 : String) (d : Nat) (h1 : parseDate req.appointment_date = some d)
    (h2 : env.today ≤ d) (h3 : weekday d < 5)
    (hok : ((getAvailability env fs req.appointment_date
        req.appointment_type).available_slots.any
        (fun sl => decide (sl.start_time = req.start_time) && sl.available))
        = true) :
    bookAppointment env fs req u8 u6 =
      ({ booking_id := "APPT-" ++ env.todayYmd ++ "-" ++ u8,
         status := "confirmed", confirmation_code := u6,
         appointment_type := req.appointment_type.name,
         date := req.appointment_date, start_time := req.start_time,
         end_time := some ((req.start_time + req.appointment_type.duration)
           % 1440),
         patient_name := req.patient.name,
         patient_email := req.patient.email, reason := req.reason,
         created_at := env.nowIso },
       saveAppointments fs (loadAppointments fs ++ [mkRecord env req u8 u6]))
    := by
  unfold bookAppointment
  rw [h1]
  simp only [if_neg (by omega : ¬ d < env.today),
    if_neg (by omega : ¬ 5 ≤ weekday d), hok, if_true]
  rfl

/-- Unfolding of `book_appointment` when the availability re-check rejects
the requested start time. -/
theorem book_eq_notok (env : Env) (fs : FileState) (req : AppointmentRequest)
    (u8 u6 : String) (d : Nat) (h1 : parseDate req.appointment_date = some d)
    (h2 : env.today ≤ d) (h3 : weekday d < 5)
    (hok : ((getAvailability env fs req.appointment_date
        req.appointment_type).available_slots.any
        (fun sl => decide (sl.start_time = req.start_time) && sl.available))
        = false) :
    bookAppointment env fs req u8 u6 =
      (failResp env req "Time slot is not available"
        (some ((req.start_time + req.appointment_type.duration) % 1440)), fs)
    := by
  unfold bookAppointment
  rw [h1]
  simp only [if_neg (by omega : ¬ d < env.today),
    if_neg (by omega : ¬ 5 ≤ weekday d), hok, if_false]
  rfl

/-- Scanning constructed slots (all flagged available) for a given start
time is membership of that start in the underlying start list. -/
theorem any_start_mem (l : List Nat) (g : Nat → Nat) (r : Nat) :
    ((l.map (fun s => TimeSlot.mk s (g s) true)).any
        (fun sl => decide (sl.start_time = r) && sl.available) = true)
      ↔ r ∈ l := by
  induction l with
  | nil => simp
  | cons a t ih =>
    simp only [List.map_cons, List.any_cons, Bool.or_eq_true, ih,
      List.mem_cons, Bool.and_eq_true, decide_eq_true_eq, and_true]
    constructor
    · rintro (h | h)
      · exact Or.inl h.symm
      · exact Or.inr h
    · rintro (rfl | h)
      · exact Or.inl rfl
      · exact Or.inr h

/-- The availability re-check of `book_appointment` is membership of the
requested start time among the listed available starts. -/
theorem ok_iff_mem (env : Env) (fs : FileState) (ds : String) (cat : Category)
    (r : Nat) (d : Nat) (h1 : parseDate ds = some d) (h2 : env.today ≤ d)
    (h3 : weekday d < 5) :
    ((getAvailability env fs ds cat).available_slots.any
        (fun sl => decide (sl.start_time = r) && sl.available) = true) ↔
      r ∈ (getAvailability env fs ds cat).available_slots.map (·.start_time)
    := by
  have hL := any_start_mem
    ((genStarts cat.duration).filter
      (fun s => slotAvailable env d (bookedOf fs ds) s cat.duration))
    (fun s => s + cat.duration) r
  rw [getAvail_eq env fs ds cat d h1 h2 h3]
  rw [hL]
  simp [List.map_map, List.mem_map]

/-! ### Claim C5 -/

/-- C5: for every date on a Saturday or Sunday, or strictly before the
current date, `get_availability` returns an empty result (no slots, count
zero, not an error), regardless of category and store contents. -/
theorem availability_empty_on_weekend_or_past (env : Env) (fs : FileState)
    (ds : String) (cat : Category) (d : Nat) (h1 : parseDate ds = some d)
    (h : d < env.today ∨ 5 ≤ weekday d) :
    (getAvailability env fs ds cat).available_slots = []
      ∧ (getAvailability env fs ds cat).total_slots = 0 := by
  simp only [getAvailability, h1]
  by_cases h2 : d < env.today
  · rw [if_pos h2]; exact ⟨rfl, rfl⟩
  · have h3 : 5 ≤ weekday d := h.resolve_left h2
    rw [if_neg h2, if_pos h3]; exact ⟨rfl, rfl⟩

/-- Witness for C5 at the Saturday 2026-10-17. -/
theorem availability_empty_on_weekend_or_past_witness :
    (getAvailability env0 (mkFS store0) "2026-10-17"
        Category.general_consultation).available_slots = []
      ∧ (getAvailability env0 (mkFS store0) "2026-10-17"
          Category.general_consultation).total_slots = 0 :=
  availability_empty_on_weekend_or_past env0 (mkFS store0) "2026-10-17"
    Category.general_consultation 739906 (by decide) (Or.inr (by decide))

/-! ### Claim C6 -/

/-- C6: a parseable booking date in the past or on a weekend yields a
failed-status result with a human-readable reason (the two causes
distinguished: past dates take precedence and report "Cannot book
appointments in the past", weekends report "Clinic is closed on
weekends"), and the store is unchanged. -/
theorem booking_rejected_past_weekend (env : Env) (fs : FileState)
    (req : AppointmentRequest) (u8 u6 : String) (d : Nat)
    (h1 : parseDate req.appointment_date = some d)
    (h : d < env.today ∨ 5 ≤ weekday d) :
    (bookAppointment env fs req u8 u6).1.status = "failed"
      ∧ (bookAppointment env fs req u8 u6).2 = fs
      ∧ (d < env.today →
          (bookAppointment env fs req u8 u6).1.reason
            = "Cannot book appointments in the past")
      ∧ (¬ d < env.today → 5 ≤ weekday d →
          (bookAppointment env fs req u8 u6).1.reason
            = "Clinic is closed on weekends")
      ∧ ("Cannot book appointments in the past" : String)
          ≠ "Clinic is closed on weekends" := by
  by_cases h2 : d < env.today
  · rw [book_past env fs req u8 u6 d h1 h2]
    exact ⟨rfl, rfl, fun _ => rfl, fun hc _ => absurd h2 hc, by decide⟩
  · have h3 : 5 ≤ weekday d := h.resolve_left h2
    rw [book_weekend env fs req u8 u6 d h1 h2 h3]
    exact ⟨rfl, rfl, fun hc => absurd hc h2, fun _ _ => rfl, by decide⟩

/-- Witness for C6: booking a Saturday fails with the clinic-closure
reason and leaves the store unchanged. -/
theorem booking_rejected_past_weekend_witness :
    (bookAppointment env0 (mkFS []) reqSat "U8" "C6").1.status = "failed"
      ∧ (bookAppointment env0 (mkFS []) reqSat "U8" "C6").2 = mkFS []
      ∧ (bookAppointment env0 (mkFS []) reqSat "U8" "C6").1.reason
          = "Clinic is closed on weekends" := by
  have h := booking_rejected_past_weekend env0 (mkFS []) reqSat "U8" "C6"
    739906 (by decide) (Or.inr (by decide))
  exact ⟨h.1, h.2.1, h.2.2.2.1 (by decide) (by decide)⟩

/-! ### Claim C1 -/

/-- C1: for a booking request whose date parses as a weekday not before
the current date, `book_appointment` returns a confirmed result and
appends the record exactly when the requested start time appears among the
available slots recomputed for (date, category) just before commit;
otherwise it fails with reason "Time slot is not available" and the store
is unchanged. -/
theorem booking_commits_iff_slot_listed (env : Env) (store : List Appt)
    (req : AppointmentRequest) (u8 u6 : String) (d : Nat)
    (h1 : parseDate req.appointment_date = some d) (h2 : env.today ≤ d)
    (h3 : weekday d < 5) :
    (((bookAppointment env (mkFS store) req u8 u6).1.status = "confirmed"
        ∧ (bookAppointment env (mkFS store) req u8 u6).2
            = mkFS (store ++ [mkRecord env req u8 u6]))
      ↔ req.start_time ∈ (getAvailability env (mkFS store)
          req.appointment_date req.appointment_type).available_slots.map
            (·.start_time))
    ∧ (req.start_time ∉ (getAvailability env (mkFS store)
          req.appointment_date req.appointment_type).available_slots.map
            (·.start_time) →
        (bookAppointment env (mkFS store) req u8 u6).1.status = "failed"
          ∧ (bookAppointment env (mkFS store) req u8 u6).1.reason
              = "Time slot is not available"
          ∧ (bookAppointment env (mkFS store) req u8 u6).2 = mkFS store) := by
  cases hok : ((getAvailability env (mkFS store) req.appointment_date
      req.appointment_type).available_slots.any
      (fun sl => decide (sl.start_time = req.start_time) && sl.available))
  with
  | false =>
    have hmem : req.start_time ∉ (getAvailability env (mkFS store)
        req.appointment_date req.appointment_type).available_slots.map
          (·.start_time) := by
      intro hm
      have ht := (ok_iff_mem env (mkFS store) req.appointment_date
        req.appointment_type req.start_time d h1 h2 h3).mpr hm
      rw [hok] at ht
      exact absurd ht (by decide)
    rw [book_eq_notok env (mkFS store) req u8 u6 d h1 h2 h3 hok]
    constructor
    · constructor
      · intro hc
        have hs : ("failed" : String) = "confirmed" := hc.1
        exact absurd hs (by decide)
      · intro hm
        exact absurd hm hmem
    · intro _
      exact ⟨rfl, rfl, rfl⟩
  | true =>
    have hmem := (ok_iff_mem env (mkFS store) req.appointment_date
      req.appointment_type req.start_time d h1 h2 h3).mp hok
    rw [book_eq_ok env (mkFS store) req u8 u6 d h1 h2 h3 hok]
    exact ⟨⟨fun _ => hmem, fun _ => ⟨rfl, rfl⟩⟩, fun hn => absurd hmem hn⟩

/-- Witness for C1: booking 09:00 on an empty Tuesday commits and appends
the record. -/
theorem booking_commits_iff_slot_listed_witness :
    (bookAppointment env0 (mkFS []) req0 "U8" "C6").1.status = "confirmed"
      ∧ (bookAppointment env0 (mkFS []) req0 "U8" "C6").2
          = mkFS ([] ++ [mkRecord env0 req0 "U8" "C6"]) :=
  (booking_commits_iff_slot_listed env0 [] req0 "U8" "C6" 739902
    (by decide) (by decide) (by decide)).1.mpr (by decide)

/-! ### Claim C3 -/

/-- C3 counterexample: 2026-10-12 is a weekday (Monday) and is not in the
past for a clock standing on that same date at 12:00, yet on an empty
store the availability for general_consultation has 18 slots, not 31: the
same-day filter removes every slot at or before the current time. -/
theorem availability_today_counterexample :
    parseDate "2026-10-12" = some 739901 ∧ weekday 739901 = 0
      ∧ env0.today = 739901
      ∧ (getAvailability env0 (mkFS []) "2026-10-12"
          Category.general_consultation).total_slots = 18
      ∧ ¬ (getAvailability env0 (mkFS []) "2026-10-12"
          Category.general_consultation).total_slots = 31 := by
  decide

/-- C3 (amended to dates strictly after the current date): on an empty
store, the available slots are exactly the candidates `540 + 15k` minutes
with `start + duration ≤ 1020` (i.e. 09:00 stepping by 15 minutes while
`start + duration <= 17:00`), each slot's end minus start is the
category's duration, the list is chronological with `total_slots` its
length, and for general_consultation the starts are the 31 times
09:00, 09:15, ..., 16:30. -/
theorem availability_future_weekday_slots (env : Env) (ds : String)
    (cat : Category) (d : Nat) (h1 : parseDate ds = some d)
    (h2 : env.today < d) (h3 : weekday d < 5) :
    (∀ s, s ∈ (getAvailability env (mkFS []) ds cat).available_slots.map
        (·.start_time) ↔ ((∃ k, s = 540 + 15 * k) ∧ s + cat.duration ≤ 1020))
    ∧ (∀ sl ∈ (getAvailability env (mkFS []) ds cat).available_slots,
        sl.end_time = sl.start_time + cat.duration)
    ∧ ((getAvailability env (mkFS []) ds cat).available_slots.map
        (·.start_time)).Pairwise (· < ·)
    ∧ (getAvailability env (mkFS []) ds cat).total_slots
        = (getAvailability env (mkFS []) ds cat).available_slots.length
    ∧ (cat = Category.general_consultation →
        (getAvailability env (mkFS []) ds cat).available_slots.map
          (·.start_time) = (List.range 31).map (fun k => 540 + 15 * k)) := by
  have hava : ∀ s, slotAvailable env d (bookedOf (mkFS []) ds) s cat.duration
      = true := by
    intro s
    rw [show bookedOf (mkFS []) ds = [] from rfl,
      slotAvailable_future env d [] s cat.duration (by omega)]
    rfl
  have hfil : (genStarts cat.duration).filter
      (fun s => slotAvailable env d (bookedOf (mkFS []) ds) s cat.duration)
      = genStarts cat.duration :=
    List.filter_eq_self.mpr (fun a _ => hava a)
  have hstarts := getAvail_starts env (mkFS []) ds cat d h1 (by omega) h3
  rw [hfil] at hstarts
  refine ⟨?_, ?_, ?_, ?_, ?_⟩
  · intro s
    rw [hstarts]
    exact mem_genStarts cat.duration s
  · rw [getAvail_eq env (mkFS []) ds cat d h1 (by omega) h3, hfil]
    rintro sl hsl
    rcases List.mem_map.mp hsl with ⟨s, -, rfl⟩
    rfl
  · rw [hstarts]
    exact pairwise_genStartsFrom cat.duration 33 540
  · rw [getAvail_eq env (mkFS []) ds cat d h1 (by omega) h3]
  · rintro rfl
    rw [hstarts]
    decide

/-- Witness for the amended C3 at Tuesday 2026-10-13. -/
theorem availability_future_weekday_slots_witness :
    (getAvailability env0 (mkFS []) "2026-10-13"
        Category.general_consultation).available_slots.map (·.start_time)
      = (List.range 31).map (fun k => 540 + 15 * k) :=
  (availability_future_weekday_slots env0 "2026-10-13"
    Category.general_consultation 739902 (by decide) (by decide)
    (by decide)).2.2.2.2 rfl

/-! ### Claim C4 -/

/-- C4: for a weekday date strictly after the current date, a candidate
slot is omitted from the available list exactly when its half-open
interval overlaps a confirmed booking on that date (overlap test
`a.start < b.end ∧ b.start < a.end`); consequently, after a successful
booking, the re-queried availability lists no slot overlapping the booked
interval (in particular not the booked slot itself). -/
theorem slot_omitted_iff_overlap (env : Env) (store : List Appt)
    (ds : String) (cat : Category) (d : Nat)
    (h1 : parseDate ds = some d) (h2 : env.today < d) (h3 : weekday d < 5) :
    (∀ s, (∃ k, s = 540 + 15 * k) → s + cat.duration ≤ 1020 →
      (s ∉ (getAvailability env (mkFS store) ds cat).available_slots.map
          (·.start_time)
        ↔ ∃ a ∈ store, a.status = "confirmed" ∧ a.date = ds
            ∧ s < a.end_time ∧ a.start_time < s + cat.duration))
    ∧ (∀ st p rsn u8 u6,
        (bookAppointment env (mkFS store)
          ⟨cat, ds, st, p, rsn⟩ u8 u6).1.status = "confirmed" →
        ∀ s, s ∈ (getAvailability env
            (bookAppointment env (mkFS store) ⟨cat, ds, st, p, rsn⟩ u8 u6).2
            ds cat).available_slots.map (·.start_time) →
          ¬ (s < st + cat.duration ∧ st < s + cat.duration)) := by
  have hstarts := getAvail_starts env (mkFS store) ds cat d h1 (by omega) h3
  constructor
  · intro s hk hle
    have hmem : s ∈ genStarts cat.duration :=
      (mem_genStarts cat.duration s).mpr ⟨hk, hle⟩
    rw [hstarts, List.mem_filter]
    constructor
    · intro hnot
      have hfalse : slotAvailable env d (bookedOf (mkFS store) ds) s
          cat.duration = false := by
        cases hb : slotAvailable env d (bookedOf (mkFS store) ds) s
            cat.duration
        · rfl
        · exact absurd ⟨hmem, hb⟩ hnot
      have hnall : ¬ ∀ b ∈ bookedOf (mkFS store) ds,
          ¬ (s < b.2 ∧ b.1 < s + cat.duration) := by
        intro hall
        have := (slotAvailable_future_iff env d (bookedOf (mkFS store) ds) s
          cat.duration (by omega)).mpr hall
        rw [hfalse] at this
        exact absurd this (by decide)
      push_neg at hnall
      rcases hnall with ⟨b, hb, hov1, hov2⟩
      rcases (mem_bookedOf (mkFS store) ds b.1 b.2).mp (by simpa using hb)
        with ⟨a, ha, hdate, hstat, hst, hend⟩
      exact ⟨a, ha, hstat, hdate, by omega, by omega⟩
    · rintro ⟨a, ha, hstat, hdate, hov1, hov2⟩ hmemfil
      have hno := slotAvailable_no_overlap env d (bookedOf (mkFS store) ds) s
        cat.duration hmemfil.2 (a.start_time, a.end_time)
        ((mem_bookedOf (mkFS store) ds a.start_time a.end_time).mpr
          ⟨a, ha, hdate, hstat, rfl, rfl⟩)
      exact hno ⟨hov1, hov2⟩
  · intro st p rsn u8 u6 hconf s hs
    cases hok : ((getAvailability env (mkFS store) ds cat).available_slots.any
        (fun sl => decide (sl.start_time = st) && sl.available))
    with
    | false =>
      rw [book_eq_notok env (mkFS store) ⟨cat, ds, st, p, rsn⟩ u8 u6 d h1
        (by omega) h3 hok] at hconf
      have hsf : ("failed" : String) = "confirmed" := hconf
      exact absurd hsf (by decide)
    | true =>
      have heq := book_eq_ok env (mkFS store) ⟨cat, ds, st, p, rsn⟩ u8 u6 d h1
        (by omega) h3 hok
      rw [heq] at hs
      rw [show saveAppointments (mkFS store) (loadAppointments (mkFS store)
          ++ [mkRecord env ⟨cat, ds, st, p, rsn⟩ u8 u6])
          = mkFS (store ++ [mkRecord env ⟨cat, ds, st, p, rsn⟩ u8 u6])
          from rfl] at hs
      have hstarts' := getAvail_starts env
        (mkFS (store ++ [mkRecord env ⟨cat, ds, st, p, rsn⟩ u8 u6])) ds cat d
        h1 (by omega) h3
      rw [hstarts'] at hs
      have hp := (List.mem_filter.mp hs).2
      have hr : (st, (st + cat.duration) % 1440)
          ∈ bookedOf (mkFS (store ++ [mkRecord env ⟨cat, ds, st, p, rsn⟩
              u8 u6])) ds :=
        (mem_bookedOf _ ds st ((st + cat.duration) % 1440)).mpr
          ⟨mkRecord env ⟨cat, ds, st, p, rsn⟩ u8 u6,
            List.mem_append_right _ (List.mem_singleton.mpr rfl),
            rfl, rfl, rfl, rfl⟩
      have hno := slotAvailable_no_overlap env d _ s cat.duration hp
        (st, (st + cat.duration) % 1440) hr
      have hmemst := (ok_iff_mem env (mkFS store) ds cat st d h1
        (by omega) h3).mp hok
      rw [hstarts] at hmemst
      have hst_cand := (mem_genStarts cat.duration st).mp
        (List.mem_filter.mp hmemst).1
      rintro ⟨ho1, ho2⟩
      apply hno
      rw [Nat.mod_eq_of_lt (by omega : st + cat.duration < 1440)]
      exact ⟨ho1, ho2⟩

/-- Witness for C4: with a confirmed 09:00-09:30 booking on 2026-10-13 in
the store, the 09:00 candidate is omitted from availability. -/
theorem slot_omitted_iff_overlap_witness :
    540 ∉ (getAvailability env0 (mkFS store0) "2026-10-13"
        Category.general_consultation).available_slots.map (·.start_time) :=
  ((slot_omitted_iff_overlap env0 store0 "2026-10-13"
      Category.general_consultation 739902 (by decide) (by decide)
      (by decide)).1 540 ⟨0, by decide⟩ (by decide)).mpr
    ⟨appt0, by decide, by decide, by decide, by decide, by decide⟩

/-! ### Claim C2 -/

/-- Booking on a healthy store yields a healthy store whose record list
either is unchanged or gains the minted record, and in the latter case the
new record overlaps no confirmed same-date record of the old store. -/
theorem book_preserves_noOverlap (env : Env) (store : List Appt)
    (req : AppointmentRequest) (u8 u6 : String) (h : NoConfOverlap store) :
    ∃ store', (bookAppointment env (mkFS store) req u8 u6).2 = mkFS store'
      ∧ NoConfOverlap store' := by
  cases hpd : parseDate req.appointment_date with
  | none =>
    exact ⟨store, by rw [book_parsefail env (mkFS store) req u8 u6 hpd], h⟩
  | some d =>
    by_cases hpast : d < env.today
    · exact ⟨store, by rw [book_past env (mkFS store) req u8 u6 d hpd hpast],
        h⟩
    by_cases hwk : 5 ≤ weekday d
    · exact ⟨store,
        by rw [book_weekend env (mkFS store) req u8 u6 d hpd hpast hwk], h⟩
    cases hok : ((getAvailability env (mkFS store) req.appointment_date
        req.appointment_type).available_slots.any
        (fun sl => decide (sl.start_time = req.start_time) && sl.available))
    with
    | false =>
      exact ⟨store, by rw [book_eq_notok env (mkFS store) req u8 u6 d hpd
        (by omega) (by omega) hok], h⟩
    | true =>
      refine ⟨store ++ [mkRecord env req u8 u6], ?_, ?_⟩
      · rw [book_eq_ok env (mkFS store) req u8 u6 d hpd (by omega) (by omega)
          hok]
        rfl
      · have hmem := (ok_iff_mem env (mkFS store) req.appointment_date
          req.appointment_type req.start_time d hpd (by omega) (by omega)).mp
          hok
        rw [getAvail_starts env (mkFS store) req.appointment_date
          req.appointment_type d hpd (by omega) (by omega)] at hmem
        have hfil := List.mem_filter.mp hmem
        have hcand := (mem_genStarts req.appointment_type.duration
          req.start_time).mp hfil.1
        rw [NoConfOverlap, List.pairwise_append]
        refine ⟨h, List.pairwise_singleton _ _, ?_⟩
        intro a ha r' hr'
        rw [List.mem_singleton] at hr'
        subst hr'
        rintro ⟨hastat, -, hadate, hov1, hov2⟩
        have hno := slotAvailable_no_overlap env d (bookedOf (mkFS store)
          req.appointment_date) req.start_time req.appointment_type.duration
          hfil.2 (a.start_time, a.end_time)
          ((mem_bookedOf (mkFS store) req.appointment_date a.start_time
            a.end_time).mpr ⟨a, ha, hadate, hastat, rfl, rfl⟩)
        apply hno
        have hmod : (req.start_time + req.appointment_type.duration) % 1440
            = req.start_time + req.appointment_type.duration :=
          Nat.mod_eq_of_lt (by omega)
        have hov1' : a.start_time
            < req.start_time + req.appointment_type.duration := by
          have : a.start_time < (mkRecord env req u8 u6).end_time := hov1
          rw [show (mkRecord env req u8 u6).end_time
            = (req.start_time + req.appointment_type.duration) % 1440
            from rfl, hmod] at this
          exact this
        exact ⟨hov2, hov1'⟩

/-- C2: starting from a store with no overlapping confirmed records, any
non-interleaved sequence of `get_availability` and `book_appointment`
calls leaves the store free of overlapping confirmed records. -/
theorem no_confirmed_overlap_invariant (store : List Appt)
    (ops : List EngineOp) (h : NoConfOverlap store) :
    NoConfOverlap (runOps (mkFS store) ops).content := by
  induction ops generalizing store with
  | nil => exact h
  | cons op rest ih =>
    cases op with
    | avail env ds cat => exact ih store h
    | book env req u8 u6 =>
      obtain ⟨store', heq, h'⟩ := book_preserves_noOverlap env store req u8 u6
        h
      show NoConfOverlap (runOps ((bookAppointment env (mkFS store) req u8
        u6).2) rest).content
      rw [heq]
      exact ih store' h'

/-- Witness for C2: an availability query followed by two bookings from
the empty store keeps the invariant. -/
theorem no_confirmed_overlap_invariant_witness :
    NoConfOverlap (runOps (mkFS [])
      [EngineOp.avail env0 "2026-10-13" Category.general_consultation,
       EngineOp.book env0 req0 "U8A" "C6A",
       EngineOp.book env0 req1 "U8B" "C6B"]).content :=
  no_confirmed_overlap_invariant []
    [EngineOp.avail env0 "2026-10-13" Category.general_consultation,
     EngineOp.book env0 req0 "U8A" "C6A",
     EngineOp.book env0 req1 "U8B" "C6B"] List.Pairwise.nil

/-! ### Claim C7 -/

/-- C7: when the patient data is invalid (the e-mail fails the syntactic
check or the phone number normalizes to fewer than ten digits), the tool
rejects the booking before any store access: the store is unchanged and
the produced message does not depend on the store at all. -/
theorem invalid_patient_no_store_access (emailOk : String → Bool)
    (env : Env) (fs fs' : FileState) (a : BookArgs) (u8 u6 : String)
    (h : emailOk a.email = false ∨ phoneDigitCount a.phone < 10) :
    (bookToolRun emailOk env fs a u8 u6).2 = fs
      ∧ (bookToolRun emailOk env fs a u8 u6).1
          = (bookToolRun emailOk env fs' a u8 u6).1 := by
  have hpat : mkPatientInfo emailOk a.name a.email a.phone = none := by
    unfold mkPatientInfo
    rcases h with h | h
    · rw [h]
      simp
    · by_cases he : emailOk a.email
      · rw [if_pos he, if_neg (by omega)]
      · rw [if_neg he]
  unfold bookToolRun
  by_cases hempty : a.name = "" ∨ a.email = "" ∨ a.phone = "" ∨ a.date = ""
      ∨ a.reason = ""
  · rw [if_pos hempty, if_pos hempty]
    exact ⟨rfl, rfl⟩
  · rw [if_neg hempty, if_neg hempty, hpat]
    exact ⟨rfl, rfl⟩

/-- Witness for C7: booking with e-mail "not-an-email" leaves the store
unchanged and produces a message independent of the store contents. -/
theorem invalid_patient_no_store_access_witness :
    (bookToolRun emailOk0 env0 (mkFS []) argsBad "U8" "C6").2 = mkFS []
      ∧ (bookToolRun emailOk0 env0 (mkFS []) argsBad "U8" "C6").1
          = (bookToolRun emailOk0 env0 (mkFS store0) argsBad "U8" "C6").1 :=
  invalid_patient_no_store_access emailOk0 env0 (mkFS []) (mkFS store0)
    argsBad "U8" "C6" (Or.inl (by decide))

/-! ### Claim C8 -/

/-- The cancel scan finds no record exactly when no record carries the
requested booking id. -/
theorem cancelFirst_eq_none (l : List Appt) (bid : String) :
    cancelFirst l bid = none ↔ ∀ a ∈ l, a.booking_id ≠ bid := by
  induction l with
  | nil => simp [cancelFirst]
  | cons a t ih =>
    by_cases h : a.booking_id = bid
    · simp [cancelFirst, h]
    · simp [cancelFirst, h, ih, Option.map_eq_none]

/-- Structure of a successful cancel scan: the first matching record has
its status flipped to cancelled, everything else is untouched. -/
theorem cancelFirst_some_struct (l : List Appt) (bid : String)
    (l' : List Appt) (h : cancelFirst l bid = some l') :
    ∃ pre a post, l = pre ++ a :: post ∧ a.booking_id = bid
      ∧ (∀ b ∈ pre, b.booking_id ≠ bid)
      ∧ l' = pre ++ { a with status := "cancelled" } :: post := by
  induction l generalizing l' with
  | nil => cases h
  | cons x t ih =>
    by_cases hx : x.booking_id = bid
    · rw [cancelFirst, if_pos hx] at h
      obtain rfl := Option.some.inj h
      exact ⟨[], x, t, rfl, hx, by simp, rfl⟩
    · rw [cancelFirst, if_neg hx] at h
      cases hm : cancelFirst t bid with
      | none => rw [hm] at h; cases h
      | some l'' =>
        rw [hm] at h
        obtain rfl := Option.some.inj h
        obtain ⟨pre, a, post, rfl, ha, hpre, rfl⟩ := ih l'' hm
        refine ⟨x :: pre, a, post, rfl, ha, ?_, rfl⟩
        intro b hb
        rcases List.mem_cons.mp hb with rfl | hb
        · exact hx
        · exact hpre b hb

/-- A matching record makes the cancel scan succeed. -/
theorem cancelFirst_isSome (l : List Appt) (bid : String)
    (h : ∃ a ∈ l, a.booking_id = bid) :
    ∃ l', cancelFirst l bid = some l' := by
  cases hm : cancelFirst l bid with
  | some l' => exact ⟨l', rfl⟩
  | none =>
    obtain ⟨a, ha, hid⟩ := h
    exact absurd hid ((cancelFirst_eq_none l bid).mp hm a ha)

/-- Re-running the cancel scan over an already-cancelled first match
returns the same list: setting the status to "cancelled" again changes
nothing. -/
theorem cancelFirst_already (pre : List Appt) (a : Appt) (post : List Appt)
    (bid : String) (hpre : ∀ b ∈ pre, b.booking_id ≠ bid)
    (ha : a.booking_id = bid) (hst : a.status = "cancelled") :
    cancelFirst (pre ++ a :: post) bid = some (pre ++ a :: post) := by
  induction pre with
  | nil =>
    rw [List.nil_append, cancelFirst, if_pos ha]
    obtain ⟨f1, f2, st, f4, f5, f6, f7, f8, f9, f10, f11⟩ := a
    cases hst
    rfl
  | cons x pre ih =>
    have hx : x.booking_id ≠ bid := hpre x (List.mem_cons_self x pre)
    rw [List.cons_append, cancelFirst, if_neg hx,
      ih (fun b hb => hpre b (List.mem_cons_of_mem x hb))]
    rfl

/-- C8: `cancel_appointment` returns false and leaves the store unchanged
when no record carries the id; with a matching record it returns true and
flips the first match's status to cancelled, leaving all other records
untouched; re-cancelling is a no-op that still returns true. -/
theorem cancel_semantics (store : List Appt) (bid : String) :
    ((∀ a ∈ store, a.booking_id ≠ bid) →
      cancelAppointment (mkFS store) bid = (false, mkFS store))
    ∧ ((∃ a ∈ store, a.booking_id = bid) →
        (cancelAppointment (mkFS store) bid).1 = true
        ∧ ∃ pre a post, store = pre ++ a :: post ∧ a.booking_id = bid
            ∧ (∀ b ∈ pre, b.booking_id ≠ bid)
            ∧ (cancelAppointment (mkFS store) bid).2
                = mkFS (pre ++ { a with status := "cancelled" } :: post))
    ∧ ((∃ a ∈ store, a.booking_id = bid) →
        cancelAppointment ((cancelAppointment (mkFS store) bid).2) bid
          = (true, (cancelAppointment (mkFS store) bid).2)) := by
  refine ⟨?_, ?_, ?_⟩
  · intro h
    unfold cancelAppointment
    rw [show loadAppointments (mkFS store) = store from rfl,
      (cancelFirst_eq_none store bid).mpr h]
  · intro hex
    obtain ⟨l', hm⟩ := cancelFirst_isSome store bid hex
    obtain ⟨pre, a, post, hsplit, ha, hpre, hl'⟩ :=
      cancelFirst_some_struct store bid l' hm
    unfold cancelAppointment
    rw [show loadAppointments (mkFS store) = store from rfl, hm]
    exact ⟨rfl, pre, a, post, hsplit, ha, hpre, by rw [hl']; rfl⟩
  · intro hex
    obtain ⟨l', hm⟩ := cancelFirst_isSome store bid hex
    obtain ⟨pre, a, post, hsplit, ha, hpre, hl'⟩ :=
      cancelFirst_some_struct store bid l' hm
    have hfs2 : (cancelAppointment (mkFS store) bid).2
        = mkFS (pre ++ { a with status := "cancelled" } :: post) := by
      unfold cancelAppointment
      rw [show loadAppointments (mkFS store) = store from rfl, hm, hl']
      rfl
    rw [hfs2]
    unfold cancelAppointment
    rw [show loadAppointments (mkFS (pre ++ { a with status := "cancelled" }
        :: post)) = pre ++ { a with status := "cancelled" } :: post from rfl,
      cancelFirst_already pre { a with status := "cancelled" } post bid hpre
        ha rfl]
    rfl

/-- Witness for C8: cancelling the one stored booking returns true; a
missing id returns false and changes nothing; re-cancelling returns true
again. -/
theorem cancel_semantics_witness :
    (cancelAppointment (mkFS store0) "NO-SUCH-ID"
        = (false, mkFS store0))
      ∧ (cancelAppointment (mkFS store0) "APPT-20261012-U8WIT000").1 = true
      ∧ cancelAppointment
          ((cancelAppointment (mkFS store0) "APPT-20261012-U8WIT000").2)
          "APPT-20261012-U8WIT000"
        = (true,
          (cancelAppointment (mkFS store0) "APPT-20261012-U8WIT000").2) := by
  have h1 := (cancel_semantics store0 "NO-SUCH-ID").1 (by decide)
  have h2 := (cancel_semantics store0 "APPT-20261012-U8WIT000").2.1
    ⟨appt0, by decide, by decide⟩
  have h3 := (cancel_semantics store0 "APPT-20261012-U8WIT000").2.2
    ⟨appt0, by decide, by decide⟩
  exact ⟨h1, h2.1, h3⟩

/-! ### Claim C9 -/

/-- C9 counterexample: with a store whose write fails, a valid booking
still returns a confirmed result and nothing is persisted — the
persistence failure is swallowed inside the saver, not converted to a
failed result. -/
theorem save_failure_confirmed_counterexample :
    (bookAppointment env0 ⟨[], false, true⟩ req0 "U8" "C6").1.status
        = "confirmed"
      ∧ (bookAppointment env0 ⟨[], false, true⟩ req0 "U8" "C6").2.content
          = [] := by
  decide

/-- C9 (amended): both operations are total and never throw; a malformed
date string yields the empty availability result and a failed booking
whose reason begins "Booking failed: "; a store-read failure is swallowed
by the loader and behaves exactly like an empty store; a store-write
failure is swallowed by the saver, leaving the file unchanged (with the
response built as if the write had succeeded). -/
theorem error_containment (env : Env) (fs : FileState) (ds : String)
    (cat : Category) (req : AppointmentRequest) (u8 u6 : String)
    (l : List Appt) (b : Bool) :
    (parseDate ds = none → getAvailability env fs ds cat = emptyAvail ds cat)
    ∧ (parseDate req.appointment_date = none →
        (bookAppointment env fs req u8 u6).1.status = "failed"
        ∧ (∃ m, (bookAppointment env fs req u8 u6).1.reason
              = "Booking failed: " ++ m)
        ∧ (bookAppointment env fs req u8 u6).2 = fs)
    ∧ (getAvailability env ⟨l, true, b⟩ ds cat
        = getAvailability env ⟨[], false, b⟩ ds cat)
    ∧ (fs.saveFails = true → (bookAppointment env fs req u8 u6).2 = fs) := by
  refine ⟨?_, ?_, ?_, ?_⟩
  · intro h
    unfold getAvailability
    rw [h]
  · intro h
    rw [book_parsefail env fs req u8 u6 h]
    exact ⟨rfl, ⟨"time data '" ++ req.appointment_date
      ++ "' does not match format", rfl⟩, rfl⟩
  · have hb : bookedOf ⟨l, true, b⟩ ds = bookedOf ⟨[], false, b⟩ ds := rfl
    unfold getAvailability
    rw [hb]
  · intro h
    cases hpd : parseDate req.appointment_date with
    | none => rw [book_parsefail env fs req u8 u6 hpd]
    | some d =>
      by_cases hpast : d < env.today
      · rw [book_past env fs req u8 u6 d hpd hpast]
      by_cases hwk : 5 ≤ weekday d
      · rw [book_weekend env fs req u8 u6 d hpd hpast hwk]
      cases hok : ((getAvailability env fs req.appointment_date
          req.appointment_type).available_slots.any
          (fun sl => decide (sl.start_time = req.start_time) && sl.available))
      with
      | false =>
        rw [book_eq_notok env fs req u8 u6 d hpd (by omega) (by omega) hok]
      | true =>
        rw [book_eq_ok env fs req u8 u6 d hpd (by omega) (by omega) hok]
        show saveAppointments fs _ = fs
        unfold saveAppointments
        rw [h]
        exact if_pos rfl

/-- Witness for the amended C9 at a malformed date string and a failing
writer. -/
theorem error_containment_witness :
    getAvailability env0 (mkFS []) "not-a-date"
        Category.general_consultation
        = emptyAvail "not-a-date" Category.general_consultation
      ∧ (bookAppointment env0 (mkFS []) reqBadDate "U8" "C6").1.status
          = "failed"
      ∧ (bookAppointment env0 ⟨[], false, true⟩ req0 "U8" "C6").2
          = ⟨[], false, true⟩ := by
  have h := error_containment env0 (mkFS []) "not-a-date"
    Category.general_consultation reqBadDate "U8" "C6" [] false
  have h2 := error_containment env0 ⟨[], false, true⟩ "2026-10-13"
    Category.general_consultation req0 "U8" "C6" [] false
  exact ⟨h.1 (by decide), (h.2.1 (by decide)).1, h2.2.2.2 rfl⟩

/-! ### Claim C10 -/

/-- C10 counterexample: two successful bookings whose uuid fragments
happen to coincide (the source never checks for this) leave two records
with the same booking id in the store. -/
theorem duplicate_uuid_counterexample :
    (bookAppointment env0 (mkFS []) req0 "AAAAAAAA" "CODE01").1.status
        = "confirmed"
      ∧ (bookAppointment env0
          (bookAppointment env0 (mkFS []) req0 "AAAAAAAA" "CODE01").2
          req1 "AAAAAAAA" "CODE02").1.status = "confirmed"
      ∧ ((bookAppointment env0
          (bookAppointment env0 (mkFS []) req0 "AAAAAAAA" "CODE01").2
          req1 "AAAAAAAA" "CODE02").2.content.map (·.booking_id))
          = ["APPT-20261012-AAAAAAAA", "APPT-20261012-AAAAAAAA"] := by
  decide

/-- A booking id determines its uuid fragment when the embedded date
strings have the fixed strftime length 8. -/
theorem bookingId_inj (d1 d2 u1 u2 : String) (h1 : d1.length = 8)
    (h2 : d2.length = 8)
    (h : "APPT-" ++ d1 ++ "-" ++ u1 = "APPT-" ++ d2 ++ "-" ++ u2) :
    u1 = u2 := by
  have hd := congrArg String.data h
  simp only [String.data_append] at hd
  have e1 : d1.data.length = 8 := h1
  have e2 : d2.data.length = 8 := h2
  have hlen : ("APPT-".data ++ d1.data ++ "-".data).length
      = ("APPT-".data ++ d2.data ++ "-".data).length := by
    simp [List.length_append, e1, e2]
  exact String.ext (List.append_inj hd hlen).2

/-- The file after a booking: unchanged, or with the minted record
appended. -/
theorem book_content_cases (env : Env) (store : List Appt)
    (req : AppointmentRequest) (u8 u6 : String) :
    (bookAppointment env (mkFS store) req u8 u6).2 = mkFS store
      ∨ (bookAppointment env (mkFS store) req u8 u6).2
          = mkFS (store ++ [mkRecord env req u8 u6]) := by
  cases hpd : parseDate req.appointment_date with
  | none => exact Or.inl (by rw [book_parsefail env (mkFS store) req u8 u6
      hpd])
  | some d =>
    by_cases hpast : d < env.today
    · exact Or.inl (by rw [book_past env (mkFS store) req u8 u6 d hpd hpast])
    by_cases hwk : 5 ≤ weekday d
    · exact Or.inl
        (by rw [book_weekend env (mkFS store) req u8 u6 d hpd hpast hwk])
    cases hok : ((getAvailability env (mkFS store) req.appointment_date
        req.appointment_type).available_slots.any
        (fun sl => decide (sl.start_time = req.start_time) && sl.available))
    with
    | false =>
      exact Or.inl (by rw [book_eq_notok env (mkFS store) req u8 u6 d hpd
        (by omega) (by omega) hok])
    | true =>
      refine Or.inr ?_
      rw [book_eq_ok env (mkFS store) req u8 u6 d hpd (by omega) (by omega)
        hok]
      rfl

/-- Induction core for C10: running booking calls with pairwise-distinct
uuid fragments preserves pairwise-distinct booking ids and confirmation
codes, given that the existing records clash with none of the pending
mints. -/
theorem runBooks_unique (calls : List BookCall) : ∀ store : List Appt,
    store.Pairwise (fun a b => a.booking_id ≠ b.booking_id
      ∧ a.confirmation_code ≠ b.confirmation_code) →
    (∀ a ∈ store, ∀ c ∈ calls,
      a.booking_id ≠ "APPT-" ++ c.env.todayYmd ++ "-" ++ c.u8
        ∧ a.confirmation_code ≠ c.u6) →
    ((calls.map (·.u8)).Pairwise (· ≠ ·)) →
    ((calls.map (·.u6)).Pairwise (· ≠ ·)) →
    (∀ c ∈ calls, c.env.todayYmd.length = 8) →
    (runBooks (mkFS store) calls).content.Pairwise
      (fun a b => a.booking_id ≠ b.booking_id
        ∧ a.confirmation_code ≠ b.confirmation_code) := by
  induction calls with
  | nil => intro store hpw _ _ _ _; exact hpw
  | cons c rest ih =>
    intro store hpw hfresh h8 h6 hlen
    rw [List.map_cons] at h8 h6
    have h8' := List.pairwise_cons.mp h8
    have h6' := List.pairwise_cons.mp h6
    show ((runBooks ((bookAppointment c.env (mkFS store) c.req c.u8
      c.u6).2) rest).content).Pairwise _
    rcases book_content_cases c.env store c.req c.u8 c.u6 with heq | heq
    · rw [heq]
      exact ih store hpw
        (fun a ha c' hc' => hfresh a ha c' (List.mem_cons_of_mem c hc'))
        h8'.2 h6'.2 (fun c' hc' => hlen c' (List.mem_cons_of_mem c hc'))
    · rw [heq]
      apply ih (store ++ [mkRecord c.env c.req c.u8 c.u6])
      · rw [List.pairwise_append]
        refine ⟨hpw, List.pairwise_singleton _ _, ?_⟩
        intro a ha r hr
        rw [List.mem_singleton] at hr
        subst hr
        exact hfresh a ha c (List.mem_cons_self c rest)
      · intro a ha c' hc'
        rcases List.mem_append.mp ha with ha | ha
        · exact hfresh a ha c' (List.mem_cons_of_mem c hc')
        · rw [List.mem_singleton] at ha
          subst ha
          constructor
          · show "APPT-" ++ c.env.todayYmd ++ "-" ++ c.u8 ≠ _
            intro hcontra
            have hu := bookingId_inj c.env.todayYmd c'.env.todayYmd c.u8
              c'.u8 (hlen c (List.mem_cons_self c rest))
              (hlen c' (List.mem_cons_of_mem c hc')) hcontra
            exact h8'.1 c'.u8 (List.mem_map.mpr ⟨c', hc', rfl⟩) hu
          · show c.u6 ≠ c'.u6
            exact h6'.1 c'.u6 (List.mem_map.mpr ⟨c', hc', rfl⟩)
      · exact h8'.2
      · exact h6'.2
      · exact fun c' hc' => hlen c' (List.mem_cons_of_mem c hc')

/-- C10 (amended): starting from the empty store, after any sequence of
`book_appointment` calls whose minted uuid fragments are pairwise distinct
(and whose clock dates render to the fixed 8-character `%Y%m%d` form),
all stored records carry pairwise-distinct booking ids and
pairwise-distinct confirmation codes.  The source performs no uniqueness
check itself: distinctness holds only as far as the random fragments
collide on no pair of calls. -/
theorem unique_ids_of_distinct_uuids (calls : List BookCall)
    (h8 : (calls.map (·.u8)).Pairwise (· ≠ ·))
    (h6 : (calls.map (·.u6)).Pairwise (· ≠ ·))
    (hlen : ∀ c ∈ calls, c.env.todayYmd.length = 8) :
    (runBooks (mkFS []) calls).content.Pairwise
      (fun a b => a.booking_id ≠ b.booking_id
        ∧ a.confirmation_code ≠ b.confirmation_code) :=
  runBooks_unique calls [] List.Pairwise.nil (by simp) h8 h6 hlen

/-- Witness for the amended C10: two bookings with distinct uuid
fragments. -/
theorem unique_ids_of_distinct_uuids_witness :
    (runBooks (mkFS [])
      [⟨env0, req0, "AAAAAAA1", "CODE01"⟩,
       ⟨env0, req1, "AAAAAAA2", "CODE02"⟩]).content.Pairwise
      (fun a b => a.booking_id ≠ b.booking_id
        ∧ a.confirmation_code ≠ b.confirmation_code) :=
  unique_ids_of_distinct_uuids
    [⟨env0, req0, "AAAAAAA1", "CODE01"⟩,
     ⟨env0, req1, "AAAAAAA2", "CODE02"⟩]
    (by decide) (by decide) (by decide)

end MedCal
